import Mathlib

/-!
# Verification of the `source_faker` connector

Shallow embedding of
`airbyte-integrations/connectors/source-faker/source_faker/source.py`.

Modelling conventions:

* Python's global `random` module is modelled as a tape of draws (`Rng`):
  an infinite sequence of natural numbers together with a position.  Each
  `random.randrange(lo, hi)` call consumes one draw and reduces it into
  `[lo, hi)`; an empty range raises `ValueError`, modelled as
  `Except.error`.
* The seeded `Faker` instance is a separate tape (`FakerGen`); `Faker.seed`
  determines the tape contents, so the tape itself is the parameter of the
  embedding.  `fake.profile()` is abstracted to one opaque draw (none of
  its fields beyond the deleted `birthdate` are inspected by the code).
* `datetime.datetime` values are modelled at whole-day granularity as
  integers, which is the granularity `random_date_in_range` works at
  (`timedelta.days` / `timedelta(days=...)`).
* Python exceptions abort the generator: a run is a list of emitted
  messages together with an optional error that truncated it.
* `generate_products` reads the static `products.json` fixture; the
  fixture contents are opaque, so the product list is a parameter
  (`products`) of the embedding, each product an opaque `Int`.
* `generate_record` tags the payload with the stream name; ISO
  serialization of timestamps and the wall-clock `emitted_at` field are
  not modelled (no claim mentions them).
* `generate_state` mutates the shared combined-state dict and emits a
  snapshot of it (the host message layer validates/copies the payload, so
  each emitted state message reflects the dict at emission time).
-/

namespace SourceFaker

/-- Tape model of Python's global `random` module: an infinite stream of
raw draws and the current position. -/
structure Rng where
  vals : Nat → Nat
  pos : Nat

/-- Consume one raw draw. -/
def Rng.next (g : Rng) : Nat × Rng :=
  (g.vals g.pos, ⟨g.vals, g.pos + 1⟩)

/-- Python `random.randrange(lo, hi)`: uniform over `[lo, hi)`; raises
`ValueError` when the range is empty (`lo >= hi`).  The raw draw is
reduced into the range, so every value of `[lo, hi)` is attainable and no
other value is. -/
def randrange (lo hi : Int) (g : Rng) : Except String (Int × Rng) :=
  if lo < hi then
    let (v, g') := g.next
    Except.ok (lo + (v : Int) % (hi - lo), g')
  else Except.error "empty range for randrange"

/-- Python `random.randrange(n)` (one-argument form): uniform over `[0, n)`. -/
def randrange1 (n : Int) (g : Rng) : Except String (Int × Rng) :=
  randrange 0 n g

/-- The draw `random.randrange(1, 100)`, used for used for the purchase budget and
the probability gates.  It never fails and its value lies in `[1, 99]`. -/
def draw1to99 (g : Rng) : Int × Rng :=
  let (v, g') := g.next
  (1 + (v : Int) % 99, g')

/--
The function `random_date_in_range(start_date, end_date=datetime.datetime.now())`.

The body: `days_between = (end_date - start_date).days`, then
`random.randrange(days_between)` picks the whole-day offset, which is
added to `start_date`.  With day-granular datetimes the `.days`
computation is plain subtraction.  The default argument is handled by
`ModuleEnv`/`call_random_date_in_range` below.
-/
def random_date_in_range (start_date end_date : Int) (g : Rng) :
    Except String (Int × Rng) :=
  let time_between_dates := end_date - start_date
  let days_between_dates := time_between_dates
  match randrange1 days_between_dates g with
  | Except.error e => Except.error e
  | Except.ok (random_number_of_days, g') =>
      Except.ok (start_date + random_number_of_days, g')

/-- Python evaluates a `def`'s default-parameter expressions once, when
the `def` statement executes (module load), and stores the resulting
values in the function object.  `random_date_in_range`'s default
`end_date=datetime.datetime.now()` is therefore the clock value at module
load. -/
structure ModuleEnv where
  random_date_default_end : Int

/-- Module load: evaluate the default-argument expression
`datetime.datetime.now()` once, at the current clock value. -/
def loadModule (clock_at_load : Int) : ModuleEnv :=
  { random_date_default_end := clock_at_load }

/-- A call to `random_date_in_range`.  `end_date = none` means the caller
omitted the argument: the value captured at module load is used; the
clock value at call time plays no role in the call's semantics. -/
def call_random_date_in_range (env : ModuleEnv) (start_date : Int)
    (end_date : Option Int) (clock_at_call : Int) (g : Rng) :
    Except String (Int × Rng) :=
  match end_date with
  | some e => random_date_in_range start_date e g
  | none => random_date_in_range start_date env.random_date_default_end g

/-- A synthetic user.  `profile` stands for the opaque
`fake.profile()` payload (with `birthdate` deleted); the remaining fields
are the `metadata` the code adds. -/
structure User where
  profile : Int
  id : Int
  created_at : Int
  updated_at : Int
deriving Repr, DecidableEq

/-- Tape model of the seeded `Faker` instance. -/
structure FakerGen where
  vals : Nat → Int
  pos : Nat

/-- Consume one faker draw. -/
def FakerGen.next (f : FakerGen) : Int × FakerGen :=
  (f.vals f.pos, ⟨f.vals, f.pos + 1⟩)

/--
The function `generate_user(fake, user_id)`: draw a profile (dropping `birthdate`),
draw `time_a` and `time_b` with `fake.date_time()`, and set
`id = user_id + 1`,
`created_at = time_a if time_a <= time_b else time_b`,
`updated_at = time_a if time_a > time_b else time_b`.
-/
def generate_user (fake : FakerGen) (user_id : Int) : User × FakerGen :=
  let (profile, fake) := fake.next
  let (time_a, fake) := fake.next
  let (time_b, fake) := fake.next
  ({ profile := profile
     id := user_id + 1
     created_at := if time_a ≤ time_b then time_a else time_b
     updated_at := if time_a > time_b then time_a else time_b }, fake)

/-- A synthetic purchase.  `added_to_cart_at` is stored as an `Option`
because the code guards on `added_to_cart_at is not None`, though the
generator always assigns it a date. -/
structure Purchase where
  id : Int
  product_id : Int
  user_id : Int
  added_to_cart_at : Option Int
  purchased_at : Option Int
  returned_at : Option Int
deriving Repr, DecidableEq

/--
The `while purchase_percent_remaining > 0` loop of `generate_purchases`.
`defaultEnd` is the module-load clock captured by
`random_date_in_range`'s default argument (every call in this loop omits
`end_date`).  Consumption order per iteration follows the source:
`product_id` draw, `added_to_cart_at` date draw, the 70% gate draw (the
`added_to_cart_at is not None` conjunct is evaluated first and
short-circuits), the purchase date draw when the gate passes, then the
15% gate draw only when `purchased_at` is not `None`, the return date
draw when that gate passes, and finally the budget draw.
-/
def purchaseLoop (defaultEnd : Int) (total_products : Int) (user : User)
    (purchases_count : Int) (purchase_percent_remaining : Int) (i : Int)
    (purchases : List Purchase) (g : Rng) :
    Except String (List Purchase × Rng) :=
  if hb : purchase_percent_remaining > 0 then
    match randrange 1 total_products g with
    | Except.error e => Except.error e
    | Except.ok (product_id, g1) =>
      match random_date_in_range user.created_at defaultEnd g1 with
      | Except.error e => Except.error e
      | Except.ok (cart_date, g2) =>
        let added_to_cart_at : Option Int := some cart_date
        match added_to_cart_at with
        | none =>
          -- `added_to_cart_at is not None` is false: short-circuit, no draw
          let purchased_at : Option Int := none
          let returned_at : Option Int := none
          let purchase : Purchase :=
            { id := purchases_count + i + 1, product_id := product_id
              user_id := user.id, added_to_cart_at := added_to_cart_at
              purchased_at := purchased_at, returned_at := returned_at }
          purchaseLoop defaultEnd total_products user purchases_count
            (purchase_percent_remaining - (draw1to99 g2).1) (i + 1)
            (purchases ++ [purchase]) (draw1to99 g2).2
        | some cart =>
          let (gate70, g3) := draw1to99 g2
          match (if gate70 ≤ 70 then
                   (random_date_in_range cart defaultEnd g3).map
                     (fun p => (some p.1, p.2))
                 else Except.ok (none, g3) :
                 Except String (Option Int × Rng)) with
          | Except.error e => Except.error e
          | Except.ok (purchased_at, g4) =>
            match (match purchased_at with
                   | some pd =>
                     let (gate15, g5) := draw1to99 g4
                     if gate15 ≤ 15 then
                       (random_date_in_range pd defaultEnd g5).map
                         (fun p => (some p.1, p.2))
                     else Except.ok (none, g5)
                   | none => Except.ok (none, g4) :
                   Except String (Option Int × Rng)) with
            | Except.error e => Except.error e
            | Except.ok (returned_at, g6) =>
              let purchase : Purchase :=
                { id := purchases_count + i + 1, product_id := product_id
                  user_id := user.id, added_to_cart_at := added_to_cart_at
                  purchased_at := purchased_at, returned_at := returned_at }
              purchaseLoop defaultEnd total_products user purchases_count
                (purchase_percent_remaining - (draw1to99 g6).1) (i + 1)
                (purchases ++ [purchase]) (draw1to99 g6).2
  else Except.ok (purchases, g)
termination_by purchase_percent_remaining.toNat
decreasing_by
  all_goals
    simp only [draw1to99, Rng.next]
    omega

/--
The function `generate_purchases(fake, user, purchases_count)`: the budget starts at
80, `total_products = len(generate_products())`, one budget draw is
subtracted before the loop, then the `while` loop above runs.
-/
def generate_purchases (defaultEnd : Int) (products : List Int)
    (user : User) (purchases_count : Int) (g : Rng) :
    Except String (List Purchase × Rng) :=
  let purchase_percent_remaining : Int := 80
  let total_products : Int := products.length
  let (d, g1) := draw1to99 g
  purchaseLoop defaultEnd total_products user purchases_count
    (purchase_percent_remaining - d) 0 [] g1

/-- One stream's checkpoint object: a small dict holding whichever of the
four keys the code ever writes (`cursor`/`seed` for Users,
`purchases_count` for Purchases, `product_count` for Products).  A key
the code did not write is `none`. -/
structure CkptData where
  cursor : Option Int := none
  seed : Option Int := none
  purchases_count : Option Int := none
  product_count : Option Int := none
deriving Repr, DecidableEq

/-- The combined state dict: stream name to checkpoint object, insertion
ordered like a Python dict. -/
abbrev StateDict := List (String × CkptData)

/-- Python `state[name]` / `name in state`: first entry with the given key, if
any (a Python dict has at most one entry per key). -/
def dictGet (s : StateDict) (k : String) : Option CkptData :=
  match s with
  | [] => none
  | (k', v) :: rest => if k' = k then some v else dictGet rest k

/-- Python `state[name] = data`: overwrite in place when the key exists,
otherwise append (Python dict insertion order). -/
def dictSet (s : StateDict) (k : String) (v : CkptData) : StateDict :=
  if s.any (fun p => p.1 = k) then
    s.map (fun p => if p.1 = k then (k, v) else p)
  else s ++ [(k, v)]

/-- The function `get_stream_cursor(state, stream)`:
`(state[stream]["cursor"] or 0) if stream in state else 0`.  The `or 0`
turns a falsy cursor (`None` or `0`) into `0`. -/
def get_stream_cursor (state : StateDict) (stream : String) : Int :=
  match dictGet state stream with
  | some d =>
    match d.cursor with
    | some c => if c = 0 then 0 else c
    | none => 0
  | none => 0

/-- The payload of a record message. -/
inductive RecordData where
  | user (u : User)
  | purchase (p : Purchase)
  | product (p : Int)
deriving Repr, DecidableEq

/-- An element of the `read` generator's output: a record message or a
state message carrying the full combined state. -/
inductive Msg where
  | record (stream : String) (data : RecordData)
  | state (data : StateDict)
deriving Repr, DecidableEq

/-- The function `generate_record(stream, data)`: tag the payload with the stream's
name.  (ISO timestamp serialization and `emitted_at` are not modelled.) -/
def generate_record (stream : String) (data : RecordData) : Msg :=
  Msg.record stream data

/-- The function `generate_state(state, stream, data)`: write this stream's checkpoint
into the combined state and emit a message carrying the whole combined
state.  Returns the message and the updated dict. -/
def generate_state (state : StateDict) (stream : String) (data : CkptData) :
    Msg × StateDict :=
  let state' := dictSet state stream data
  (Msg.state state', state')

/-- Result of the `for i in range(cursor, count)` loop of the Users
branch of `read`: the messages yielded, the threaded mutable values, and
the exception (if one) that aborted the generator. -/
structure LoopOut where
  msgs : List Msg
  state : StateDict
  total_records : Int
  purchases_count : Int
  fake : FakerGen
  g : Rng
  err : Option String

/--
The body of `for i in range(cursor, count)` in `read`'s Users branch.
`fuel` is the number of remaining loop indices (`read` passes
`(count - cursor).toNat`), `i` the current index.  Per iteration: emit
one user; if Purchases is enabled, build its purchase batch (an exception
there aborts the generator after the user record, before any purchase of
the batch) and emit it, advancing `purchases_count`; when
`records_in_page` reaches `records_per_slice`, emit an intermediate Users
checkpoint `{cursor: total_records, seed: seed}` and reset the page;
when `records_in_sync` reaches `records_per_sync`, break.
-/
def usersLoop (defaultEnd : Int) (products : List Int) (seed : Option Int)
    (records_per_sync records_per_slice : Int)
    (to_generate_purchases : Bool) (i : Int) (fuel : Nat)
    (total_records records_in_sync records_in_page purchases_count : Int)
    (state : StateDict) (fake : FakerGen) (g : Rng) : LoopOut :=
  match fuel with
  | 0 => ⟨[], state, total_records, purchases_count, fake, g, none⟩
  | fuel' + 1 =>
    let (user, fake1) := generate_user fake i
    let m1 := generate_record "Users" (RecordData.user user)
    let total_records1 := total_records + 1
    let records_in_sync1 := records_in_sync + 1
    let records_in_page1 := records_in_page + 1
    match (if to_generate_purchases then
             generate_purchases defaultEnd products user purchases_count g
           else Except.ok ([], g)) with
    | Except.error e =>
      ⟨[m1], state, total_records1, purchases_count, fake1, g, some e⟩
    | Except.ok (purchases, g1) =>
      let pmsgs := purchases.map
        (fun p => generate_record "Purchases" (RecordData.purchase p))
      let purchases_count1 := purchases_count + purchases.length
      let (ckptMsgs, state1, records_in_page2) :=
        if records_in_page1 = records_per_slice then
          let (m, st) := generate_state state "Users"
            { cursor := some total_records1, seed := seed }
          ([m], st, (0 : Int))
        else ([], state, records_in_page1)
      if records_in_sync1 = records_per_sync then
        ⟨m1 :: pmsgs ++ ckptMsgs, state1, total_records1, purchases_count1,
          fake1, g1, none⟩
      else
        let rest := usersLoop defaultEnd products seed records_per_sync
          records_per_slice to_generate_purchases (i + 1) fuel'
          total_records1 records_in_sync1 records_in_page2 purchases_count1
          state1 fake1 g1
        ⟨m1 :: pmsgs ++ ckptMsgs ++ rest.msgs, rest.state,
          rest.total_records, rest.purchases_count, rest.fake, rest.g,
          rest.err⟩

/--
The `for stream in catalog.streams` dispatch loop of `read`.  Streams are
processed in catalog order.  The Users branch resumes from
`get_stream_cursor`, runs the user loop, then (unless an exception
aborted it) emits the final Users checkpoint and, when a Purchases
stream is configured (`purchases_stream is not None`), the final
Purchases checkpoint.  The Products branch emits every product then its
checkpoint.  The Purchases branch is a no-op (purchases are emitted
inline with users).  Any other stream name raises `ValueError(name)`.
Returns the yielded messages, the final combined state dict, and the
aborting exception if one occurred.
-/
def streamsLoop (defaultEnd : Int) (products : List Int) (seed : Option Int)
    (count records_per_sync records_per_slice : Int)
    (to_generate_purchases purchases_present : Bool)
    (streams : List String) (purchases_count : Int)
    (state : StateDict) (fake : FakerGen) (g : Rng) :
    List Msg × StateDict × Option String :=
  match streams with
  | [] => ([], state, none)
  | name :: rest =>
    if name = "Users" then
      let cursor := get_stream_cursor state "Users"
      let out := usersLoop defaultEnd products seed records_per_sync
        records_per_slice to_generate_purchases cursor
        ((count - cursor).toNat) cursor 0 0 purchases_count state fake g
      match out.err with
      | some e => (out.msgs, out.state, some e)
      | none =>
        let (mU, state1) := generate_state out.state "Users"
          { cursor := some out.total_records, seed := seed }
        let (pcMsgs, state2) :=
          if purchases_present then
            let (mP, st) := generate_state state1 "Purchases"
              { purchases_count := some out.purchases_count }
            ([mP], st)
          else ([], state1)
        let (mrest, stF, errF) := streamsLoop defaultEnd products seed count
          records_per_sync records_per_slice to_generate_purchases
          purchases_present rest out.purchases_count state2 out.fake out.g
        (out.msgs ++ [mU] ++ pcMsgs ++ mrest, stF, errF)
    else if name = "Products" then
      let pmsgs := products.map
        (fun p => generate_record "Products" (RecordData.product p))
      let (mS, state1) := generate_state state "Products"
        { product_count := some (products.length : Int) }
      let (mrest, stF, errF) := streamsLoop defaultEnd products seed count
        records_per_sync records_per_slice to_generate_purchases
        purchases_present rest purchases_count state1 fake g
      (pmsgs ++ [mS] ++ mrest, stF, errF)
    else if name = "Purchases" then
      -- purchases are generated as part of the Users stream
      streamsLoop defaultEnd products seed count records_per_sync
        records_per_slice to_generate_purchases purchases_present rest
        purchases_count state fake g
    else ([], state, some name)

/-- The recognized configuration options; `none` means the key is absent
from the config object. -/
structure Config where
  count : Option Int := none
  seed : Option Int := none
  records_per_sync : Option Int := none
  records_per_slice : Option Int := none

/--
The method `SourceFaker.read(logger, config, catalog, state)`.

Parses the config with its defaults, seeds the faker (modelled by the
`fake` tape), scans the catalog for Users/Purchases, resumes
`purchases_count` from the prior state, raises the configuration error
when Purchases is enabled without Users (before anything is yielded),
and otherwise dispatches on the configured streams in catalog order.
`defaultEnd` is the module-load clock captured by
`random_date_in_range`'s default argument.  The returned triple is the
yielded message sequence, the final combined state dict, and the
exception (if one) that aborted the generator after the listed messages.
-/
def read (defaultEnd : Int) (products : List Int) (config : Config)
    (catalogStreams : List String) (state : StateDict)
    (fake : FakerGen) (g : Rng) : List Msg × StateDict × Option String :=
  let count : Int := config.count.getD 0
  let seed : Option Int := config.seed
  let records_per_sync : Int := config.records_per_sync.getD 500
  let records_per_slice : Int := config.records_per_slice.getD 100
  let to_generate_users := catalogStreams.any (fun s => s = "Users")
  let to_generate_purchases := catalogStreams.any (fun s => s = "Purchases")
  -- `purchases_stream` ends up not-None exactly when some configured
  -- stream is named "Purchases", i.e. together with to_generate_purchases
  let purchases_count : Int :=
    match dictGet state "Purchases" with
    | some d => d.purchases_count.getD 0
    | none => 0
  if to_generate_purchases && !to_generate_users then
    ([], state, some "Purchases stream cannot be enabled without Users stream")
  else
    streamsLoop defaultEnd products seed count records_per_sync
      records_per_slice to_generate_purchases to_generate_purchases
      catalogStreams purchases_count state fake g

/-- Python `purchases_count = state["Purchases"]["purchases_count"] if
"Purchases" in state else 0`. -/
def purchases_count_so_far (state : StateDict) : Int :=
  match dictGet state "Purchases" with
  | some d => d.purchases_count.getD 0
  | none => 0

/-- The user payloads of the record messages of a run, in order. -/
def userRecords (msgs : List Msg) : List User :=
  msgs.filterMap (fun m =>
    match m with
    | Msg.record _ (RecordData.user u) => some u
    | _ => none)

/-- The purchase payloads of the record messages of a run, in order. -/
def purchaseRecords (msgs : List Msg) : List Purchase :=
  msgs.filterMap (fun m =>
    match m with
    | Msg.record _ (RecordData.purchase p) => some p
    | _ => none)

/-- Number of user records in a message list. -/
def userCount (msgs : List Msg) : Nat := (userRecords msgs).length

/-- Is this message a Product record? -/
def isProductRecord (m : Msg) : Bool :=
  match m with
  | Msg.record _ (RecordData.product _) => true
  | _ => false

/-- Is this message a User or a Purchase record? -/
def isUserOrPurchaseRecord (m : Msg) : Bool :=
  match m with
  | Msg.record _ (RecordData.user _) => true
  | Msg.record _ (RecordData.purchase _) => true
  | _ => false

/-- The predicate `consecFrom a l`: the integer list `l` is exactly
`a, a+1, a+2, ...` — consecutive, gap-free, starting at `a`. -/
def consecFrom : Int → List Int → Prop
  | _, [] => True
  | a, x :: l => x = a ∧ consecFrom (a + 1) l

/-- The causal-chain invariant of one purchase: a later timestamp is
present only when its predecessor is. -/
def causalChain (p : Purchase) : Prop :=
  (p.added_to_cart_at = none → p.purchased_at = none) ∧
  (p.purchased_at = none → p.returned_at = none)

/--
The predicate `stateCursorsFrom seed t msgs`: every state message in `msgs` carries a
Users checkpoint `{cursor: t + (number of user records preceding it in
msgs), seed: seed}`, where `t` counts the users emitted before `msgs`
began (including the resumed offset).
-/
def stateCursorsFrom (seed : Option Int) : Int → List Msg → Prop
  | _, [] => True
  | t, Msg.record _ (RecordData.user _) :: rest =>
      stateCursorsFrom seed (t + 1) rest
  | t, Msg.record _ _ :: rest => stateCursorsFrom seed t rest
  | t, Msg.state d :: rest =>
      dictGet d "Users" = some { cursor := some t, seed := seed } ∧
      stateCursorsFrom seed t rest

/-- Fixture tape for concrete runs: raw draws 0, 5, 5, then 98 forever. -/
def wVals : Nat → Nat := fun n => [0, 5, 5, 98].getD n 98

/-- Fixture random source at position 0. -/
def wRng : Rng := ⟨wVals, 0⟩

/-- Fixture faker tape: every faker draw is 0. -/
def wFake : FakerGen := ⟨fun _ => 0, 0⟩

/-- The user the fixture faker tape generates at index 0. -/
def wUser : User :=
  { profile := 0, id := 1, created_at := 0, updated_at := 0 }

/-- The one purchase `generate_purchases` produces on the fixture tape. -/
def wPurchase : Purchase :=
  { id := 1, product_id := 2, user_id := 1, added_to_cart_at := some 5,
    purchased_at := none, returned_at := none }

/-- The product payloads of the record messages of a run, in order. -/
def productRecords (msgs : List Msg) : List Int :=
  msgs.filterMap (fun m =>
    match m with
    | Msg.record _ (RecordData.product p) => some p
    | _ => none)

/-- The Users-branch loop output of `read` on the catalog
`["Users", "Purchases"]`. -/
def uOut (dE : Int) (products : List Int) (config : Config)
    (st : StateDict) (fake : FakerGen) (g : Rng) : LoopOut :=
  usersLoop dE products config.seed (config.records_per_sync.getD 500)
    (config.records_per_slice.getD 100) true
    (get_stream_cursor st "Users")
    ((config.count.getD 0 - get_stream_cursor st "Users").toNat)
    (get_stream_cursor st "Users") 0 0 (purchases_count_so_far st)
    st fake g

theorem randrange_one_hundred_eq (g : Rng) :
    randrange 1 100 g = Except.ok (draw1to99 g) := by
  simp [randrange, draw1to99, Rng.next]

theorem draw1to99_ge_one (g : Rng) : 1 ≤ (draw1to99 g).1 := by
  have h := Int.emod_nonneg ((g.vals g.pos : Int)) (by norm_num : (99 : Int) ≠ 0)
  simp [draw1to99, Rng.next]
  omega

theorem draw1to99_le_99 (g : Rng) : (draw1to99 g).1 ≤ 99 := by
  have h := Int.emod_lt_of_pos ((g.vals g.pos : Int)) (by norm_num : (0 : Int) < 99)
  simp [draw1to99, Rng.next]
  omega

theorem consecFrom_append {a : Int} {l₁ l₂ : List Int}
    (h₁ : consecFrom a l₁) (h₂ : consecFrom (a + l₁.length) l₂) :
    consecFrom a (l₁ ++ l₂) := by
  induction l₁ generalizing a with
  | nil => simpa using h₂
  | cons x l ih =>
    obtain ⟨hx, hl⟩ := h₁
    refine ⟨hx, ih hl ?_⟩
    have : a + 1 + (l.length : Int) = a + (l.length + 1 : Nat) := by
      push_cast; ring
    rw [this]
    simpa using h₂

theorem consecFrom_get {a : Int} {l : List Int} (h : consecFrom a l) :
    ∀ j (hj : j < l.length), l.get ⟨j, hj⟩ = a + j := by
  induction l generalizing a with
  | nil => intro j hj; simp at hj
  | cons x l ih =>
    intro j hj
    obtain ⟨hx, hl⟩ := h
    cases j with
    | zero => simpa using hx
    | succ j' =>
      have := ih hl j' (by simpa using hj)
      simp only [List.get_cons_succ] at *
      rw [this]; push_cast; ring

theorem consecFrom_mem {a : Int} {l : List Int} (h : consecFrom a l) :
    ∀ x ∈ l, a ≤ x := by
  induction l generalizing a with
  | nil => intro x hx; simp at hx
  | cons y l ih =>
    intro x hx
    obtain ⟨hy, hl⟩ := h
    rcases List.mem_cons.mp hx with hx | hx
    · omega
    · have := ih hl x hx; omega

theorem dictGet_map_set_self (s : StateDict) (k : String) (v : CkptData)
    (hany : s.any (fun p => p.1 = k) = true) :
    dictGet (s.map (fun p => if p.1 = k then (k, v) else p)) k = some v := by
  induction s with
  | nil => simp at hany
  | cons p rest ih =>
    simp only [List.any_cons, Bool.or_eq_true, decide_eq_true_eq] at hany
    by_cases hp : p.1 = k
    · simp only [List.map_cons]
      rw [if_pos hp]
      simp [dictGet]
    · simp only [List.map_cons]
      rw [if_neg hp]
      simp only [dictGet, if_neg hp]
      have hrest := hany.resolve_left hp
      exact ih (by simpa using hrest)

theorem dictGet_append_single_self (s : StateDict) (k : String)
    (v : CkptData) (hnone : ¬s.any (fun p => p.1 = k) = true) :
    dictGet (s ++ [(k, v)]) k = some v := by
  induction s with
  | nil => simp [dictGet]
  | cons p rest ih =>
    have hp : ¬p.1 = k := fun h => hnone (by simp [List.any_cons, h])
    have hrest : ¬(rest.any fun p => decide (p.1 = k)) = true :=
      fun h => hnone (by simp [List.any_cons, h])
    simp only [List.cons_append, dictGet, if_neg hp]
    exact ih hrest

theorem dictGet_dictSet_self (s : StateDict) (k : String) (v : CkptData) :
    dictGet (dictSet s k v) k = some v := by
  unfold dictSet
  split
  · rename_i hany
    exact dictGet_map_set_self s k v hany
  · rename_i hany
    exact dictGet_append_single_self s k v hany

theorem dictGet_map_set_ne (s : StateDict) (k k' : String) (v : CkptData)
    (h : ¬k = k') :
    dictGet (s.map (fun p => if p.1 = k then (k, v) else p)) k' =
      dictGet s k' := by
  induction s with
  | nil => rfl
  | cons p rest ih =>
    by_cases hp : p.1 = k
    · simp only [List.map_cons]
      rw [if_pos hp]
      simp only [dictGet, if_neg h, if_neg (by rw [hp]; exact h : ¬p.1 = k')]
      exact ih
    · simp only [List.map_cons]
      rw [if_neg hp]
      by_cases hq : p.1 = k'
      · simp [dictGet, hq]
      · simp [dictGet, hq, ih]

theorem dictGet_append_single_ne (s : StateDict) (k k' : String)
    (v : CkptData) (h : ¬k = k') :
    dictGet (s ++ [(k, v)]) k' = dictGet s k' := by
  induction s with
  | nil => simp [dictGet, h]
  | cons p rest ih =>
    simp only [List.cons_append, dictGet]
    by_cases hq : p.1 = k'
    · simp [hq]
    · simp [hq, ih]

theorem dictGet_dictSet_ne (s : StateDict) (k k' : String) (v : CkptData)
    (h : ¬k = k') : dictGet (dictSet s k v) k' = dictGet s k' := by
  unfold dictSet
  split
  · exact dictGet_map_set_ne s k k' v h
  · exact dictGet_append_single_ne s k k' v h

/--
Postcondition of the purchase `while` loop: on success it extends the
accumulator with new purchases whose ids run consecutively from
`pc + i + 1`, every new purchase has `added_to_cart_at` set and respects
the `purchased_at → returned_at` guard, the loop adds nothing when the
budget is already spent, and adds at least one purchase when it is not.
-/
theorem purchaseLoop_post (dE tp : Int) (u : User) (pc : Int) :
    ∀ (n : Nat) (b : Int), b.toNat ≤ n →
      ∀ (i : Int) (acc : List Purchase) (g : Rng) (ps : List Purchase)
        (g' : Rng),
        purchaseLoop dE tp u pc b i acc g = Except.ok (ps, g') →
        ∃ newPs, ps = acc ++ newPs ∧
          consecFrom (pc + i + 1) (newPs.map Purchase.id) ∧
          (∀ p ∈ newPs, p.added_to_cart_at ≠ none ∧
            (p.purchased_at = none → p.returned_at = none)) ∧
          (b ≤ 0 → newPs = []) ∧
          (0 < b → newPs ≠ []) := by
  intro n
  induction n with
  | zero =>
    intro b hbn i acc g ps g' hok
    have hb : ¬b > 0 := by omega
    rw [purchaseLoop, dif_neg hb] at hok
    simp only [Except.ok.injEq, Prod.mk.injEq] at hok
    exact ⟨[], by simp [hok.1.symm], trivial, by simp, fun _ => rfl,
      fun hpos => absurd hpos hb⟩
  | succ n ih =>
    intro b hbn i acc g ps g' hok
    by_cases hb : b > 0
    · rw [purchaseLoop, dif_pos hb] at hok
      split at hok
      · exact Except.noConfusion hok
      · rename_i pid g1 heq1
        split at hok
        · exact Except.noConfusion hok
        · rename_i cart_date g2 heq2
          simp only [] at hok
          split at hok
          · exact Except.noConfusion hok
          · rename_i purchased g4 heq3
            split at hok
            · exact Except.noConfusion hok
            · rename_i returned g6 heq4
              have hd := draw1to99_ge_one g6
              obtain ⟨newPs, hps, hconsec, hchain, _, _⟩ :=
                ih (b - (draw1to99 g6).1) (by omega) (i + 1) _ _ ps g' hok
              refine ⟨{ id := pc + i + 1, product_id := pid,
                        user_id := u.id,
                        added_to_cart_at := some cart_date,
                        purchased_at := purchased,
                        returned_at := returned } :: newPs,
                      ?_, ?_, ?_, ?_, ?_⟩
              · rw [hps]; simp
              · refine ⟨rfl, ?_⟩
                have heq : pc + (i + 1) + 1 = pc + i + 1 + 1 := by ring
                rw [heq] at hconsec
                exact hconsec
              · intro p hp
                rcases List.mem_cons.mp hp with hp | hp
                · subst hp
                  refine ⟨by simp, ?_⟩
                  intro hnone
                  simp only at hnone
                  simp only [hnone] at heq4
                  simp only [Except.ok.injEq, Prod.mk.injEq] at heq4
                  exact heq4.1.symm
                · exact hchain p hp
              · intro hle; omega
              · intro _; simp
    · rw [purchaseLoop, dif_neg hb] at hok
      simp only [Except.ok.injEq, Prod.mk.injEq] at hok
      exact ⟨[], by simp [hok.1.symm], trivial, by simp, fun _ => rfl,
        fun hpos => absurd hpos hb⟩

/-- Combined postcondition of `generate_purchases`: ids run consecutively
from `purchases_count + 1`, timestamps respect the causal guards, and the
batch is empty exactly when the first budget draw spends the budget. -/
theorem generate_purchases_post (dE : Int) (products : List Int) (u : User)
    (pc : Int) (g : Rng) (ps : List Purchase) (g' : Rng)
    (hok : generate_purchases dE products u pc g = Except.ok (ps, g')) :
    consecFrom (pc + 1) (ps.map Purchase.id) ∧
    (∀ p ∈ ps, p.added_to_cart_at ≠ none ∧
      (p.purchased_at = none → p.returned_at = none)) ∧
    (ps = [] ↔ 80 - (draw1to99 g).1 ≤ 0) := by
  unfold generate_purchases at hok
  simp only [] at hok
  obtain ⟨newPs, hps, hconsec, hchain, hle, hpos⟩ :=
    purchaseLoop_post dE (products.length : Int) u pc
      (80 - (draw1to99 g).1).toNat (80 - (draw1to99 g).1) (le_refl _)
      0 [] (draw1to99 g).2 ps g' hok
  simp only [List.nil_append] at hps
  subst hps
  have h01 : pc + 0 + 1 = pc + 1 := by ring
  rw [h01] at hconsec
  refine ⟨hconsec, hchain, ?_, fun h => hle h⟩
  intro h
  by_contra hgt
  push_neg at hgt
  exact hpos (by omega) h

/-- C4: for every purchase produced by `generate_purchases`, if
`added_to_cart_at` is absent then `purchased_at` is absent, and if
`purchased_at` is absent then `returned_at` is absent. -/
theorem generate_purchases_causal_chain (defaultEnd : Int)
    (products : List Int) (user : User) (purchases_count : Int) (g : Rng)
    (ps : List Purchase) (g' : Rng)
    (hok : generate_purchases defaultEnd products user purchases_count g =
      Except.ok (ps, g')) :
    ∀ p ∈ ps, causalChain p := by
  intro p hp
  obtain ⟨-, hchain, -⟩ :=
    generate_purchases_post defaultEnd products user purchases_count g
      ps g' hok
  obtain ⟨hadd, hpr⟩ := hchain p hp
  exact ⟨fun h => absurd h hadd, hpr⟩

/-- Witness for C4 at a concrete tape. -/
theorem generate_purchases_causal_chain_witness : causalChain wPurchase :=
  generate_purchases_causal_chain 10 [1, 2, 3] wUser 0 wRng [wPurchase]
    ⟨wVals, 5⟩
    (by simp [generate_purchases, purchaseLoop, draw1to99, Rng.next,
          randrange, randrange1, random_date_in_range, wRng, wVals, wUser,
          wPurchase])
    wPurchase (by simp)

/-- C5: every generated user has `created_at ≤ updated_at` — the two
timestamp samples are ordered into the two fields — and
`id = generation index + 1`. -/
theorem generate_user_post (fake : FakerGen) (user_id : Int) :
    (generate_user fake user_id).1.created_at ≤
      (generate_user fake user_id).1.updated_at ∧
    (generate_user fake user_id).1.id = user_id + 1 := by
  unfold generate_user
  refine ⟨?_, rfl⟩
  dsimp only
  split <;> split <;> omega

/-- C7 counterexample: the budget subtraction is
`random.randrange(1, 100)`, which never takes the value 100 — so the
subtracted amount is not a uniform draw over [1, 100] (whose every value,
including 100, would have to be attainable). -/
theorem budget_draw_never_100 : ¬∃ g : Rng, (draw1to99 g).1 = 100 := by
  rintro ⟨g, h⟩
  have h1 := draw1to99_le_99 g
  omega

/-- C7 amended: `generate_purchases` starts the budget at 80 and
subtracts a draw from [1, 99] (`random.randrange(1, 100)`) before the
first purchase and after each purchase; the loop generates exactly while
the budget is positive — it stops when the budget is `≤ 0` and produces
at least one more purchase otherwise — so a user gets zero purchases
precisely when the first subtraction drives 80 to 0 or below. -/
theorem generate_purchases_budget (defaultEnd : Int) (products : List Int)
    (user : User) (purchases_count : Int) (g : Rng) :
    (∀ g0 : Rng, 1 ≤ (draw1to99 g0).1 ∧ (draw1to99 g0).1 ≤ 99) ∧
    (∀ ps g',
      generate_purchases defaultEnd products user purchases_count g =
        Except.ok (ps, g') → (ps = [] ↔ 80 - (draw1to99 g).1 ≤ 0)) ∧
    (∀ (b i : Int) (acc : List Purchase) (g1 : Rng), b ≤ 0 →
      purchaseLoop defaultEnd (products.length : Int) user purchases_count
        b i acc g1 = Except.ok (acc, g1)) ∧
    (∀ (b i : Int) (acc : List Purchase) (g1 : Rng) ps g', 0 < b →
      purchaseLoop defaultEnd (products.length : Int) user purchases_count
        b i acc g1 = Except.ok (ps, g') → acc.length < ps.length) := by
  refine ⟨fun g0 => ⟨draw1to99_ge_one g0, draw1to99_le_99 g0⟩, ?_, ?_, ?_⟩
  · intro ps g' hok
    exact (generate_purchases_post defaultEnd products user purchases_count
      g ps g' hok).2.2
  · intro b i acc g1 hble
    rw [purchaseLoop, dif_neg (by omega : ¬b > 0)]
  · intro b i acc g1 ps g' hbpos hok
    obtain ⟨newPs, hps, -, -, -, hpos⟩ :=
      purchaseLoop_post defaultEnd (products.length : Int) user
        purchases_count b.toNat b (le_refl _) i acc g1 ps g' hok
    have hne := hpos hbpos
    have : 0 < newPs.length := List.length_pos.mpr hne
    simp only [hps, List.length_append]
    omega

/-- Witness for C7 (amended) at concrete inputs. -/
theorem generate_purchases_budget_witness :
    (1 ≤ (draw1to99 wRng).1 ∧ (draw1to99 wRng).1 ≤ 99) ∧
    ([wPurchase] = [] ↔ 80 - (draw1to99 wRng).1 ≤ 0) ∧
    purchaseLoop 10 3 wUser 0 (-1) 0 [] wRng = Except.ok ([], wRng) ∧
    ([] : List Purchase).length < [wPurchase].length :=
  ⟨(generate_purchases_budget 10 [1, 2, 3] wUser 0 wRng).1 wRng,
   (generate_purchases_budget 10 [1, 2, 3] wUser 0 wRng).2.1 [wPurchase]
     ⟨wVals, 5⟩
     (by simp [generate_purchases, purchaseLoop, draw1to99, Rng.next,
           randrange, randrange1, random_date_in_range, wRng, wVals,
           wUser, wPurchase]),
   (generate_purchases_budget 10 [1, 2, 3] wUser 0 wRng).2.2.1 (-1) 0 []
     wRng (by norm_num),
   (generate_purchases_budget 10 [1, 2, 3] wUser 0 wRng).2.2.2
     (80 - (draw1to99 wRng).1) 0 [] ⟨wVals, 1⟩ [wPurchase] ⟨wVals, 5⟩
     (by simp [draw1to99, Rng.next, wRng, wVals])
     (by simp [purchaseLoop, draw1to99, Rng.next, randrange, randrange1,
           random_date_in_range, wRng, wVals, wUser, wPurchase])⟩

/-- C8: `random_date_in_range` samples a whole-day offset in
`[0, days_between(start, end))` and returns `start` plus that offset;
with a zero-width range (`start == end`) the range computation raises
(`random.randrange(0)` has an empty range) instead of returning
`start`. -/
theorem random_date_in_range_post (start_date end_date : Int) (g : Rng) :
    (start_date < end_date →
      ∃ off g', 0 ≤ off ∧ off < end_date - start_date ∧
        random_date_in_range start_date end_date g =
          Except.ok (start_date + off, g')) ∧
    (start_date = end_date →
      ∃ e, random_date_in_range start_date end_date g =
        Except.error e) := by
  constructor
  · intro hlt
    refine ⟨(g.vals g.pos : Int) % (end_date - start_date), ⟨g.vals, g.pos + 1⟩,
      Int.emod_nonneg _ (by omega),
      Int.emod_lt_of_pos _ (by omega), ?_⟩
    unfold random_date_in_range randrange1 randrange
    simp only []
    rw [if_pos (by omega : (0 : Int) < end_date - start_date)]
    simp [Rng.next]
  · intro heq
    refine ⟨"empty range for randrange", ?_⟩
    unfold random_date_in_range randrange1 randrange
    simp only []
    rw [if_neg (by omega : ¬(0 : Int) < end_date - start_date)]

/-- Witness for C8 at concrete dates. -/
theorem random_date_in_range_post_witness :
    (∃ off g', 0 ≤ off ∧ off < 10 - 0 ∧
      random_date_in_range 0 10 wRng = Except.ok (0 + off, g')) ∧
    (∃ e, random_date_in_range 0 0 wRng = Except.error e) :=
  ⟨(random_date_in_range_post 0 10 wRng).1 (by norm_num),
   (random_date_in_range_post 0 0 wRng).2 rfl⟩

/-- C10: the `end_date=datetime.datetime.now()` default is evaluated once
at module load; a call omitting `end_date` uses that captured value, so
two such calls at different wall-clock times sample from the same fixed
range `[start, module-load time)`. -/
theorem default_end_frozen (clock_at_load start_date t1 t2 : Int)
    (g : Rng) :
    call_random_date_in_range (loadModule clock_at_load) start_date none
        t1 g =
      call_random_date_in_range (loadModule clock_at_load) start_date none
        t2 g ∧
    call_random_date_in_range (loadModule clock_at_load) start_date none
        t1 g =
      random_date_in_range start_date clock_at_load g :=
  ⟨rfl, rfl⟩

/-- C3: a configured catalog with Purchases but without Users makes
`read` raise the configuration `ValueError` before yielding anything:
the emitted sequence is empty. -/
theorem read_purchases_without_users (defaultEnd : Int)
    (products : List Int) (config : Config)
    (catalogStreams : List String) (state : StateDict) (fake : FakerGen)
    (g : Rng) (hPur : "Purchases" ∈ catalogStreams)
    (hUs : "Users" ∉ catalogStreams) :
    read defaultEnd products config catalogStreams state fake g =
      ([], state,
        some "Purchases stream cannot be enabled without Users stream") := by
  have h1 : catalogStreams.any (fun s => s = "Purchases") = true :=
    List.any_eq_true.mpr ⟨_, hPur, by simp⟩
  have h2 : catalogStreams.any (fun s => s = "Users") = false := by
    rw [List.any_eq_false]
    intro x hx
    simp only [decide_eq_true_eq]
    intro hxx
    exact hUs (hxx ▸ hx)
  unfold read
  rw [h1, h2]
  simp

/-- Witness for C3 at a concrete catalog. -/
theorem read_purchases_without_users_witness :
    read 0 [] {} ["Purchases"] [] wFake wRng =
      ([], [],
        some "Purchases stream cannot be enabled without Users stream") :=
  read_purchases_without_users 0 [] {} ["Purchases"] [] wFake wRng
    (by simp) (by simp)

@[simp] theorem userRecords_nil : userRecords [] = [] := rfl

@[simp] theorem userRecords_cons_user (s : String) (u : User)
    (rest : List Msg) :
    userRecords (Msg.record s (RecordData.user u) :: rest) =
      u :: userRecords rest := rfl

@[simp] theorem userRecords_cons_purchase (s : String) (p : Purchase)
    (rest : List Msg) :
    userRecords (Msg.record s (RecordData.purchase p) :: rest) =
      userRecords rest := rfl

@[simp] theorem userRecords_cons_product (s : String) (p : Int)
    (rest : List Msg) :
    userRecords (Msg.record s (RecordData.product p) :: rest) =
      userRecords rest := rfl

@[simp] theorem userRecords_cons_state (d : StateDict) (rest : List Msg) :
    userRecords (Msg.state d :: rest) = userRecords rest := rfl

@[simp] theorem userRecords_append (a b : List Msg) :
    userRecords (a ++ b) = userRecords a ++ userRecords b := by
  simp [userRecords, List.filterMap_append]

@[simp] theorem purchaseRecords_nil : purchaseRecords [] = [] := rfl

@[simp] theorem purchaseRecords_cons_user (s : String) (u : User)
    (rest : List Msg) :
    purchaseRecords (Msg.record s (RecordData.user u) :: rest) =
      purchaseRecords rest := rfl

@[simp] theorem purchaseRecords_cons_purchase (s : String) (p : Purchase)
    (rest : List Msg) :
    purchaseRecords (Msg.record s (RecordData.purchase p) :: rest) =
      p :: purchaseRecords rest := rfl

@[simp] theorem purchaseRecords_cons_product (s : String) (p : Int)
    (rest : List Msg) :
    purchaseRecords (Msg.record s (RecordData.product p) :: rest) =
      purchaseRecords rest := rfl

@[simp] theorem purchaseRecords_cons_state (d : StateDict)
    (rest : List Msg) :
    purchaseRecords (Msg.state d :: rest) = purchaseRecords rest := rfl

@[simp] theorem purchaseRecords_append (a b : List Msg) :
    purchaseRecords (a ++ b) =
      purchaseRecords a ++ purchaseRecords b := by
  simp [purchaseRecords, List.filterMap_append]

@[simp] theorem purchaseRecords_purchase_map (ps : List Purchase) :
    purchaseRecords (ps.map
      (fun p => Msg.record "Purchases" (RecordData.purchase p))) =
      ps := by
  induction ps with
  | nil => rfl
  | cons p ps ih =>
    simp only [List.map_cons, purchaseRecords_cons_purchase, ih]

@[simp] theorem userRecords_purchase_map (ps : List Purchase) :
    userRecords (ps.map
      (fun p => Msg.record "Purchases" (RecordData.purchase p))) =
      [] := by
  induction ps with
  | nil => rfl
  | cons p ps ih =>
    simp only [List.map_cons, userRecords_cons_purchase, ih]

theorem stateCursorsFrom_append (seed : Option Int) (t : Int)
    (A B : List Msg) :
    stateCursorsFrom seed t (A ++ B) ↔
      stateCursorsFrom seed t A ∧
      stateCursorsFrom seed (t + (userCount A : Int)) B := by
  induction A generalizing t with
  | nil => simp [stateCursorsFrom, userCount]
  | cons m A ih =>
    cases m with
    | record s d =>
      cases d with
      | user u =>
        simp only [List.cons_append, stateCursorsFrom, List.append_eq,
          ih, userCount, userRecords_cons_user, List.length_cons]
        have hcast : t + (((userRecords A).length : Int) + 1) =
            t + 1 + ((userRecords A).length : Int) := by ring
        push_cast
        rw [hcast]
      | purchase p =>
        simp only [List.cons_append, stateCursorsFrom, List.append_eq,
          ih, userCount, userRecords_cons_purchase]
      | product p =>
        simp only [List.cons_append, stateCursorsFrom, List.append_eq,
          ih, userCount, userRecords_cons_product]
    | state d =>
      simp only [List.cons_append, stateCursorsFrom, List.append_eq, ih,
        userCount, userRecords_cons_state]
      constructor
      · rintro ⟨h0, h1, h2⟩
        exact ⟨⟨h0, h1⟩, h2⟩
      · rintro ⟨⟨h0, h1⟩, h2⟩
        exact ⟨h0, h1, h2⟩

theorem stateCursorsFrom_purchase_map (seed : Option Int) (t : Int)
    (ps : List Purchase) :
    stateCursorsFrom seed t (ps.map
      (fun p => Msg.record "Purchases" (RecordData.purchase p))) := by
  induction ps with
  | nil => trivial
  | cons p ps ih => simpa [stateCursorsFrom] using ih

@[simp] theorem generate_user_id (fake : FakerGen) (user_id : Int) :
    (generate_user fake user_id).1.id = user_id + 1 := rfl

theorem isProductRecord_purchase_map (ps : List Purchase) :
    ∀ m ∈ ps.map
      (fun p => Msg.record "Purchases" (RecordData.purchase p)),
      isProductRecord m = false := by
  intro m hm
  obtain ⟨p, -, rfl⟩ := List.mem_map.mp hm
  rfl

/-- The purchase batch built inside the user loop: ids run consecutively
from `purchases_count + 1` whether or not Purchases is enabled. -/
theorem purchases_branch_consec (dE : Int) (products : List Int)
    (u : User) (pc : Int) (g : Rng) (purch : Bool)
    (purchases : List Purchase) (g1 : Rng)
    (heqp : (if purch then generate_purchases dE products u pc g
             else Except.ok ([], g)) = Except.ok (purchases, g1)) :
    consecFrom (pc + 1) (purchases.map Purchase.id) := by
  by_cases hp : purch
  · rw [if_pos hp] at heqp
    exact (generate_purchases_post dE products u pc g purchases g1 heqp).1
  · rw [if_neg hp] at heqp
    simp only [Except.ok.injEq, Prod.mk.injEq] at heqp
    rw [← heqp.1]
    trivial

@[simp] theorem productRecords_nil : productRecords [] = [] := rfl

@[simp] theorem productRecords_cons_user (s : String) (u : User)
    (rest : List Msg) :
    productRecords (Msg.record s (RecordData.user u) :: rest) =
      productRecords rest := rfl

@[simp] theorem productRecords_cons_purchase (s : String) (p : Purchase)
    (rest : List Msg) :
    productRecords (Msg.record s (RecordData.purchase p) :: rest) =
      productRecords rest := rfl

@[simp] theorem productRecords_cons_product (s : String) (p : Int)
    (rest : List Msg) :
    productRecords (Msg.record s (RecordData.product p) :: rest) =
      p :: productRecords rest := rfl

@[simp] theorem productRecords_cons_state (d : StateDict)
    (rest : List Msg) :
    productRecords (Msg.state d :: rest) = productRecords rest := rfl

@[simp] theorem productRecords_append (a b : List Msg) :
    productRecords (a ++ b) =
      productRecords a ++ productRecords b := by
  simp [productRecords, List.filterMap_append]

@[simp] theorem productRecords_purchase_map (ps : List Purchase) :
    productRecords (ps.map
      (fun p => Msg.record "Purchases" (RecordData.purchase p))) =
      [] := by
  induction ps with
  | nil => rfl
  | cons p ps ih =>
    simp only [List.map_cons, productRecords_cons_purchase, ih]

theorem productRecords_nil_no_product (msgs : List Msg)
    (h : productRecords msgs = []) :
    ∀ m ∈ msgs, isProductRecord m = false := by
  induction msgs with
  | nil => intro m hm; simp at hm
  | cons m0 rest ih =>
    intro m hm
    rcases List.mem_cons.mp hm with rfl | hm
    · cases m with
      | state d => rfl
      | record s d =>
        cases d with
        | user u => rfl
        | purchase p => rfl
        | product p => simp [productRecords] at h
    · refine ih ?_ m hm
      cases m0 with
      | state d => simpa [productRecords] using h
      | record s d =>
        cases d with
        | user u => simpa using h
        | purchase p => simpa using h
        | product p => simp at h

/--
Combined invariant of the Users `for` loop: user ids of the emitted
records run consecutively from `i + 1`; purchase ids run consecutively
from `purchases_count + 1`, and the final counter advances by their
number; `total_records` advances by the number of user records; every
state message carries a Users checkpoint whose cursor is the running
total (resumed offset plus users emitted so far) together with the seed;
and no Product record is emitted.
-/
theorem usersLoop_post (dE : Int) (products : List Int) (seed : Option Int)
    (rps rpsl : Int) (purch : Bool) :
    ∀ (fuel : Nat) (i tr rins rinp pc : Int) (st : StateDict)
      (fake : FakerGen) (g : Rng) (out : LoopOut),
      usersLoop dE products seed rps rpsl purch i fuel tr rins rinp pc
        st fake g = out →
      consecFrom (i + 1) ((userRecords out.msgs).map User.id) ∧
      consecFrom (pc + 1) ((purchaseRecords out.msgs).map Purchase.id) ∧
      out.purchases_count =
        pc + ((purchaseRecords out.msgs).length : Int) ∧
      out.total_records = tr + (userCount out.msgs : Int) ∧
      stateCursorsFrom seed tr out.msgs ∧
      productRecords out.msgs = [] ∧
      userCount out.msgs ≤ fuel := by
  intro fuel
  induction fuel with
  | zero =>
    intro i tr rins rinp pc st fake g out h
    rw [usersLoop] at h
    subst h
    simp [userCount, stateCursorsFrom, consecFrom]
  | succ n ih =>
    intro i tr rins rinp pc st fake g out h
    rw [usersLoop] at h
    simp only [] at h
    split at h
    · rename_i e heqp
      subst h
      refine ⟨?_, ?_, ?_, ?_, ?_, ?_, ?_⟩
      · simp only [generate_record, List.append_eq, userRecords_cons_user,
          userRecords_nil, List.map_cons, List.map_nil, generate_user_id]
        exact ⟨rfl, trivial⟩
      · simp only [generate_record, List.append_eq, purchaseRecords_cons_user,
          purchaseRecords_nil, List.map_nil]
        trivial
      · simp only [generate_record, List.append_eq, purchaseRecords_cons_user,
          purchaseRecords_nil, List.length_nil, Nat.cast_zero, add_zero]
      · simp only [generate_record, List.append_eq, userCount, userRecords_cons_user,
          userRecords_nil, List.length_cons, List.length_nil]
        norm_num
      · simp only [generate_record, List.append_eq, stateCursorsFrom]
      · simp only [generate_record, List.append_eq, productRecords_cons_user,
          productRecords_nil]
      · simp only [generate_record, List.append_eq, userCount,
          userRecords_cons_user, userRecords_nil, List.length_cons,
          List.length_nil]
        omega
    · rename_i purchases g1 heqp
      have hpcons := purchases_branch_consec dE products
        (generate_user fake i).1 pc g purch purchases g1 heqp
      by_cases hsync : rins + 1 = rps
      · rw [if_pos hsync] at h
        by_cases hpage : rinp + 1 = rpsl
        · rw [if_pos hpage] at h
          simp only [generate_state] at h
          subst h
          refine ⟨?_, ?_, ?_, ?_, ?_, ?_, ?_⟩
          · simp only [generate_record, List.append_eq, userRecords_cons_user,
              userRecords_append, userRecords_purchase_map,
              userRecords_cons_state, userRecords_nil, List.nil_append,
              List.append_nil, List.map_cons, List.map_nil,
              generate_user_id]
            exact ⟨rfl, trivial⟩
          · simp only [generate_record, List.append_eq, purchaseRecords_cons_user,
              purchaseRecords_append, purchaseRecords_purchase_map,
              purchaseRecords_cons_state, purchaseRecords_nil,
              List.append_nil]
            exact hpcons
          · simp only [generate_record, List.append_eq, purchaseRecords_cons_user,
              purchaseRecords_append, purchaseRecords_purchase_map,
              purchaseRecords_cons_state, purchaseRecords_nil,
              List.append_nil]
          · simp only [generate_record, List.append_eq, userCount, userRecords_cons_user,
              userRecords_append, userRecords_purchase_map,
              userRecords_cons_state, userRecords_nil, List.nil_append,
              List.append_nil, List.length_cons, List.length_nil]
            push_cast
            ring
          · simp only [generate_record, List.append_eq, stateCursorsFrom, List.append_eq,
              stateCursorsFrom_append, userCount, userRecords_purchase_map,
              List.length_nil, Nat.cast_zero, add_zero]
            exact ⟨stateCursorsFrom_purchase_map seed (tr + 1) purchases,
              dictGet_dictSet_self st "Users" _, trivial⟩
          · simp only [generate_record, List.append_eq, productRecords_cons_user,
              productRecords_append, productRecords_purchase_map,
              productRecords_cons_state, productRecords_nil,
              List.append_nil]
          · simp only [generate_record, List.append_eq, userCount,
              userRecords_cons_user, userRecords_append,
              userRecords_purchase_map, userRecords_cons_state,
              userRecords_nil, List.nil_append, List.append_nil,
              List.length_cons, List.length_nil]
            omega
        · rw [if_neg hpage] at h
          subst h
          refine ⟨?_, ?_, ?_, ?_, ?_, ?_, ?_⟩
          · simp only [generate_record, List.append_eq, userRecords_cons_user,
              userRecords_append, userRecords_purchase_map,
              userRecords_nil, List.nil_append, List.append_nil,
              List.map_cons, List.map_nil, generate_user_id]
            exact ⟨rfl, trivial⟩
          · simp only [generate_record, List.append_eq, purchaseRecords_cons_user,
              purchaseRecords_append, purchaseRecords_purchase_map,
              purchaseRecords_nil, List.append_nil]
            exact hpcons
          · simp only [generate_record, List.append_eq, purchaseRecords_cons_user,
              purchaseRecords_append, purchaseRecords_purchase_map,
              purchaseRecords_nil, List.append_nil]
          · simp only [generate_record, List.append_eq, userCount, userRecords_cons_user,
              userRecords_append, userRecords_purchase_map,
              userRecords_nil, List.nil_append, List.append_nil,
              List.length_cons, List.length_nil]
            push_cast
            ring
          · simp only [generate_record, List.append_eq, stateCursorsFrom, List.append_eq,
              stateCursorsFrom_append, userCount, userRecords_purchase_map,
              List.length_nil, Nat.cast_zero, add_zero]
            exact ⟨stateCursorsFrom_purchase_map seed (tr + 1) purchases,
              trivial⟩
          · simp only [generate_record, List.append_eq, productRecords_cons_user,
              productRecords_append, productRecords_purchase_map,
              productRecords_nil, List.append_nil]
          · simp only [generate_record, List.append_eq, userCount,
              userRecords_cons_user, userRecords_append,
              userRecords_purchase_map, userRecords_nil, List.nil_append,
              List.append_nil, List.length_cons, List.length_nil]
            omega
      · rw [if_neg hsync] at h
        by_cases hpage : rinp + 1 = rpsl
        · rw [if_pos hpage] at h
          simp only [generate_state] at h
          subst h
          obtain ⟨ih1, ih2, ih3, ih4, ih5, ih6, ih7⟩ :=
            ih (i + 1) (tr + 1) (rins + 1) 0 (pc + purchases.length)
              (dictSet st "Users"
                { cursor := some (tr + 1), seed := seed,
                  purchases_count := none, product_count := none })
              (generate_user fake i).2 g1 _ rfl
          refine ⟨?_, ?_, ?_, ?_, ?_, ?_, ?_⟩
          · simp only [generate_record, List.append_eq, userRecords_cons_user,
              userRecords_append, userRecords_purchase_map,
              userRecords_cons_state, userRecords_nil, List.nil_append,
              List.map_cons, generate_user_id]
            exact ⟨rfl, ih1⟩
          · simp only [generate_record, List.append_eq, purchaseRecords_cons_user,
              purchaseRecords_append, purchaseRecords_purchase_map,
              purchaseRecords_cons_state, purchaseRecords_nil,
              List.nil_append, List.append_nil, List.map_append]
            refine consecFrom_append hpcons ?_
            have hx : pc + 1 + ((purchases.map Purchase.id).length : Int)
                = pc + (purchases.length : Int) + 1 := by
              simp only [List.length_map]
              ring
            rw [hx]
            exact ih2
          · simp only [generate_record, List.append_eq, purchaseRecords_cons_user,
              purchaseRecords_append, purchaseRecords_purchase_map,
              purchaseRecords_cons_state, purchaseRecords_nil,
              List.nil_append, List.append_nil, List.length_append]
            rw [ih3]
            push_cast
            ring
          · simp only [generate_record, List.append_eq, userCount, userRecords_cons_user,
              userRecords_append, userRecords_purchase_map,
              userRecords_cons_state, userRecords_nil, List.nil_append,
              List.append_nil, List.length_cons]
            rw [ih4]
            simp only [userCount, List.length_append,
              List.length_singleton, List.length_cons, List.length_nil]
            push_cast
            ring
          · simp only [generate_record, List.append_eq, stateCursorsFrom, List.append_eq,
              stateCursorsFrom_append, userCount, userRecords_append,
              userRecords_purchase_map, userRecords_cons_state,
              userRecords_nil, List.length_nil, List.nil_append,
              List.append_nil, Nat.cast_zero, add_zero]
            exact ⟨⟨stateCursorsFrom_purchase_map seed (tr + 1) purchases,
              dictGet_dictSet_self st "Users" _, trivial⟩, ih5⟩
          · simp only [generate_record, List.append_eq, productRecords_cons_user,
              productRecords_append, productRecords_purchase_map,
              productRecords_cons_state, productRecords_nil,
              List.nil_append, List.append_nil]
            exact ih6
          · simp only [generate_record, List.append_eq, userCount,
              userRecords_cons_user, userRecords_append,
              userRecords_purchase_map, userRecords_cons_state,
              userRecords_nil, List.nil_append, List.append_nil,
              List.singleton_append, List.length_append,
              List.length_singleton, List.length_cons, List.length_nil]
            simp only [userCount] at ih7
            omega
        · rw [if_neg hpage] at h
          subst h
          obtain ⟨ih1, ih2, ih3, ih4, ih5, ih6, ih7⟩ :=
            ih (i + 1) (tr + 1) (rins + 1) (rinp + 1)
              (pc + purchases.length) st (generate_user fake i).2 g1 _ rfl
          refine ⟨?_, ?_, ?_, ?_, ?_, ?_, ?_⟩
          · simp only [generate_record, List.append_eq, userRecords_cons_user,
              userRecords_append, userRecords_purchase_map,
              userRecords_nil, List.nil_append, List.map_cons,
              generate_user_id]
            exact ⟨rfl, ih1⟩
          · simp only [generate_record, List.append_eq, purchaseRecords_cons_user,
              purchaseRecords_append, purchaseRecords_purchase_map,
              purchaseRecords_nil, List.nil_append, List.append_nil,
              List.map_append]
            refine consecFrom_append hpcons ?_
            have hx : pc + 1 + ((purchases.map Purchase.id).length : Int)
                = pc + (purchases.length : Int) + 1 := by
              simp only [List.length_map]
              ring
            rw [hx]
            exact ih2
          · simp only [generate_record, List.append_eq, purchaseRecords_cons_user,
              purchaseRecords_append, purchaseRecords_purchase_map,
              purchaseRecords_nil, List.nil_append, List.append_nil,
              List.length_append]
            rw [ih3]
            push_cast
            ring
          · simp only [generate_record, List.append_eq, userCount, userRecords_cons_user,
              userRecords_append, userRecords_purchase_map,
              userRecords_nil, List.nil_append, List.append_nil,
              List.length_cons]
            rw [ih4]
            simp only [userCount, List.length_append,
              List.length_singleton, List.length_cons, List.length_nil]
            push_cast
            ring
          · simp only [generate_record, List.append_eq, stateCursorsFrom, List.append_eq,
              stateCursorsFrom_append, userCount, userRecords_append,
              userRecords_purchase_map, userRecords_nil, List.length_nil,
              Nat.cast_zero, add_zero, List.nil_append,
              List.append_nil]
            exact ⟨stateCursorsFrom_purchase_map seed (tr + 1) purchases,
              ih5⟩
          · simp only [generate_record, List.append_eq, productRecords_cons_user,
              productRecords_append, productRecords_purchase_map,
              productRecords_nil, List.nil_append, List.append_nil]
            exact ih6
          · simp only [generate_record, List.append_eq, userCount,
              userRecords_cons_user, userRecords_append,
              userRecords_purchase_map, userRecords_nil, List.nil_append,
              List.append_nil, List.singleton_append, List.length_append,
              List.length_singleton, List.length_cons, List.length_nil]
            simp only [userCount] at ih7
            omega

/-- Unfolding of `read` on the catalog `["Users", "Purchases"]`: the user
loop runs from the resumed cursor; an exception truncates the output
there; otherwise the final Users checkpoint and the final Purchases
checkpoint follow (the Purchases catalog entry itself is a no-op). -/
theorem read_UP_eq (dE : Int) (products : List Int) (config : Config)
    (st : StateDict) (fake : FakerGen) (g : Rng) :
    read dE products config ["Users", "Purchases"] st fake g =
      (match (uOut dE products config st fake g).err with
       | some e => ((uOut dE products config st fake g).msgs,
           (uOut dE products config st fake g).state, some e)
       | none =>
           ((uOut dE products config st fake g).msgs ++
             [Msg.state (dictSet (uOut dE products config st fake g).state
               "Users"
               { cursor :=
                   some (uOut dE products config st fake g).total_records,
                 seed := config.seed })] ++
             [Msg.state (dictSet
               (dictSet (uOut dE products config st fake g).state "Users"
                 { cursor :=
                     some (uOut dE products config st fake g).total_records,
                   seed := config.seed })
               "Purchases"
               { purchases_count :=
                   some (uOut dE products config st fake g).purchases_count
               })] ++ [],
            dictSet
              (dictSet (uOut dE products config st fake g).state "Users"
                { cursor :=
                    some (uOut dE products config st fake g).total_records,
                  seed := config.seed })
              "Purchases"
              { purchases_count :=
                  some (uOut dE products config st fake g).purchases_count },
            none)) := rfl

theorem consecFrom_map_get? {α : Type} (f : α → Int) :
    ∀ (c : Int) (l : List α), consecFrom (c + 1) (l.map f) →
      ∀ (j : Nat) (x : α), l.get? j = some x → f x = c + j + 1 := by
  intro c l
  induction l generalizing c with
  | nil => intro h j x hx; simp at hx
  | cons y l ih =>
    intro h j x hx
    obtain ⟨hy, hl⟩ := h
    cases j with
    | zero =>
      simp only [List.get?] at hx
      cases hx
      simp [hy]
    | succ j' =>
      simp only [List.get?] at hx
      have := ih (c + 1) hl j' x hx
      push_cast at this ⊢
      omega

theorem consecFrom_map_mem {α : Type} (f : α → Int) {c : Int}
    {l : List α} (h : consecFrom (c + 1) (l.map f)) :
    ∀ x ∈ l, c + 1 ≤ f x := fun x hx =>
  consecFrom_mem h (f x) (List.mem_map_of_mem f hx)

theorem read_UP_userRecords (dE : Int) (products : List Int)
    (config : Config) (st : StateDict) (fake : FakerGen) (g : Rng) :
    userRecords
        (read dE products config ["Users", "Purchases"] st fake g).1 =
      userRecords (uOut dE products config st fake g).msgs := by
  rw [read_UP_eq]
  cases hcase : (uOut dE products config st fake g).err with
  | some e => simp only [hcase]
  | none =>
    simp only [hcase, userRecords_append, userRecords_cons_state,
      userRecords_nil, List.append_nil]

theorem read_UP_purchaseRecords (dE : Int) (products : List Int)
    (config : Config) (st : StateDict) (fake : FakerGen) (g : Rng) :
    purchaseRecords
        (read dE products config ["Users", "Purchases"] st fake g).1 =
      purchaseRecords (uOut dE products config st fake g).msgs := by
  rw [read_UP_eq]
  cases hcase : (uOut dE products config st fake g).err with
  | some e => simp only [hcase]
  | none =>
    simp only [hcase, purchaseRecords_append, purchaseRecords_cons_state,
      purchaseRecords_nil, List.append_nil]

/-- The seven-component invariant specialized to `uOut`. -/
theorem uOut_post (dE : Int) (products : List Int) (config : Config)
    (st : StateDict) (fake : FakerGen) (g : Rng) :
    consecFrom (get_stream_cursor st "Users" + 1)
      ((userRecords (uOut dE products config st fake g).msgs).map
        User.id) ∧
    consecFrom (purchases_count_so_far st + 1)
      ((purchaseRecords (uOut dE products config st fake g).msgs).map
        Purchase.id) ∧
    (uOut dE products config st fake g).purchases_count =
      purchases_count_so_far st +
        ((purchaseRecords (uOut dE products config st fake g).msgs).length
          : Int) ∧
    (uOut dE products config st fake g).total_records =
      get_stream_cursor st "Users" +
        (userCount (uOut dE products config st fake g).msgs : Int) ∧
    stateCursorsFrom config.seed (get_stream_cursor st "Users")
      (uOut dE products config st fake g).msgs ∧
    productRecords (uOut dE products config st fake g).msgs = [] ∧
    userCount (uOut dE products config st fake g).msgs ≤
      (config.count.getD 0 - get_stream_cursor st "Users").toNat :=
  usersLoop_post dE products config.seed
    (config.records_per_sync.getD 500)
    (config.records_per_slice.getD 100) true
    ((config.count.getD 0 - get_stream_cursor st "Users").toNat)
    (get_stream_cursor st "Users") (get_stream_cursor st "Users") 0 0
    (purchases_count_so_far st) st fake g _ rfl

/-- C1: resuming `read` from a prior state whose Users checkpoint holds
cursor `c` (`get_stream_cursor`, defaulting to 0 when absent), the user
loop starts at index `c`: every emitted user has id at least `c + 1` —
no user of generation index `< c` is re-emitted — the `j`-th emitted
user has id `c + j + 1`, and at most `count - c` users are emitted (the
loop runs from `c` up to `count` exclusive). -/
theorem read_resumed_cursor (dE : Int) (products : List Int)
    (config : Config) (st : StateDict) (fake : FakerGen) (g : Rng) :
    (∀ u ∈ userRecords
        (read dE products config ["Users", "Purchases"] st fake g).1,
      get_stream_cursor st "Users" + 1 ≤ u.id) ∧
    (∀ (j : Nat) (u : User),
      (userRecords
        (read dE products config ["Users", "Purchases"] st fake g).1).get?
          j = some u →
      u.id = get_stream_cursor st "Users" + j + 1) ∧
    ((userRecords
        (read dE products config ["Users", "Purchases"] st fake g).1).length
      ≤ (config.count.getD 0 - get_stream_cursor st "Users").toNat) := by
  obtain ⟨h1, -, -, -, -, -, h7⟩ := uOut_post dE products config st fake g
  rw [read_UP_userRecords]
  refine ⟨consecFrom_map_mem User.id h1,
    consecFrom_map_get? User.id _ _ h1, ?_⟩
  simpa [userCount] using h7

/-- Witness for C1: resuming from cursor 2 with count 4, the first
emitted user has id 2 + 0 + 1 = 3. -/
theorem read_resumed_cursor_witness :
    ({ profile := 0, id := 3, created_at := 0, updated_at := 0 } :
        User).id =
      get_stream_cursor [("Users", { cursor := some 2, seed := some 42 })]
        "Users" + 0 + 1 :=
  (read_resumed_cursor 10 [101, 102, 103]
    { count := some 4, seed := some 42 }
    [("Users", { cursor := some 2, seed := some 42 })] wFake wRng).2.1 0
    { profile := 0, id := 3, created_at := 0, updated_at := 0 }
    (by simp [read, streamsLoop, usersLoop, generate_purchases,
          purchaseLoop, generate_user, generate_record, generate_state,
          draw1to99, Rng.next, FakerGen.next, randrange, randrange1,
          random_date_in_range, get_stream_cursor, dictGet, dictSet,
          purchases_count_so_far, wFake, wVals, wRng, userRecords])

/-- C2: within one `read`, the emitted Purchase ids form a strictly
increasing gap-free sequence starting at `purchases_count_so_far + 1`
(the prior Purchases checkpoint, defaulting to 0); and when the run ends
without an exception and its final combined state is carried into a
second `read`, the concatenated purchase ids continue the same gap-free
sequence. -/
theorem read_purchase_id_chain (dE dE2 : Int)
    (products products2 : List Int) (config config2 : Config)
    (st : StateDict) (fake fake2 : FakerGen) (g g2 : Rng) :
    (∀ (j : Nat) (p : Purchase),
      (purchaseRecords
        (read dE products config ["Users", "Purchases"] st fake g).1).get?
          j = some p →
      p.id = purchases_count_so_far st + j + 1) ∧
    ((read dE products config ["Users", "Purchases"] st fake g).2.2 =
        none →
      ∀ (j : Nat) (p : Purchase),
        (purchaseRecords
          ((read dE products config ["Users", "Purchases"] st fake g).1 ++
           (read dE2 products2 config2 ["Users", "Purchases"]
             (read dE products config ["Users", "Purchases"] st fake
               g).2.1 fake2 g2).1)).get? j = some p →
        p.id = purchases_count_so_far st + j + 1) := by
  obtain ⟨-, h2, h3, -, -, -, -⟩ := uOut_post dE products config st fake g
  constructor
  · rw [read_UP_purchaseRecords]
    exact consecFrom_map_get? Purchase.id _ _ h2
  · intro herr
    have herr' : (uOut dE products config st fake g).err = none := by
      rw [read_UP_eq] at herr
      cases hcase : (uOut dE products config st fake g).err with
      | none => rfl
      | some e => rw [hcase] at herr; simp at herr
    have hst1 :
        (read dE products config ["Users", "Purchases"] st fake g).2.1 =
        dictSet
          (dictSet (uOut dE products config st fake g).state "Users"
            { cursor :=
                some (uOut dE products config st fake g).total_records,
              seed := config.seed })
          "Purchases"
          { purchases_count :=
              some (uOut dE products config st fake g).purchases_count } := by
      rw [read_UP_eq, herr']
    have hp0 : purchases_count_so_far
        (read dE products config ["Users", "Purchases"] st fake g).2.1 =
        purchases_count_so_far st +
          ((purchaseRecords
            (uOut dE products config st fake g).msgs).length : Int) := by
      rw [hst1]
      unfold purchases_count_so_far
      rw [dictGet_dictSet_self]
      simp [h3, purchases_count_so_far]
    obtain ⟨-, h2', -, -, -, -, -⟩ := uOut_post dE2 products2 config2
      (read dE products config ["Users", "Purchases"] st fake g).2.1
      fake2 g2
    rw [hp0] at h2'
    have hcat : consecFrom (purchases_count_so_far st + 1)
        ((purchaseRecords
          ((read dE products config ["Users", "Purchases"] st fake g).1 ++
           (read dE2 products2 config2 ["Users", "Purchases"]
             (read dE products config ["Users", "Purchases"] st fake
               g).2.1 fake2 g2).1)).map Purchase.id) := by
      rw [purchaseRecords_append, List.map_append,
        read_UP_purchaseRecords, read_UP_purchaseRecords]
      refine consecFrom_append h2 ?_
      have hx : purchases_count_so_far st + 1 +
          (((purchaseRecords
            (uOut dE products config st fake g).msgs).map
              Purchase.id).length : Int) =
          purchases_count_so_far st +
            ((purchaseRecords
              (uOut dE products config st fake g).msgs).length : Int) +
            1 := by
        simp only [List.length_map]
        ring
      rw [hx]
      exact h2'
    exact consecFrom_map_get? Purchase.id _ _ hcat

/-- Witness for C2: carrying the checkpoint of a one-user run into a
second run, the second purchase overall has id 0 + 1 + 1 = 2. -/
theorem read_purchase_id_chain_witness :
    ({ id := 2, product_id := 2, user_id := 2, added_to_cart_at := some 5,
        purchased_at := none, returned_at := none } : Purchase).id =
      purchases_count_so_far [] + 1 + 1 :=
  (read_purchase_id_chain 10 10 [101, 102, 103] [101, 102, 103]
    { count := some 1 } { count := some 2 } [] wFake wFake wRng wRng).2
    (by simp [read, streamsLoop, usersLoop, generate_purchases,
          purchaseLoop, generate_user, generate_record, generate_state,
          draw1to99, Rng.next, FakerGen.next, randrange, randrange1,
          random_date_in_range, get_stream_cursor, dictGet, dictSet,
          purchases_count_so_far, wFake, wVals, wRng])
    1
    { id := 2, product_id := 2, user_id := 2, added_to_cart_at := some 5,
      purchased_at := none, returned_at := none }
    (by simp [read, streamsLoop, usersLoop, generate_purchases,
          purchaseLoop, generate_user, generate_record, generate_state,
          draw1to99, Rng.next, FakerGen.next, randrange, randrange1,
          random_date_in_range, get_stream_cursor, dictGet, dictSet,
          purchases_count_so_far, wFake, wVals, wRng, purchaseRecords])

theorem read_UP_stateCursors (dE : Int) (products : List Int)
    (config : Config) (st : StateDict) (fake : FakerGen) (g : Rng) :
    stateCursorsFrom config.seed (get_stream_cursor st "Users")
      (read dE products config ["Users", "Purchases"] st fake g).1 := by
  obtain ⟨-, -, -, h4, h5, -, -⟩ := uOut_post dE products config st fake g
  rw [read_UP_eq]
  cases hcase : (uOut dE products config st fake g).err with
  | some e => simpa only [hcase] using h5
  | none =>
    simp only [hcase, List.append_nil]
    rw [stateCursorsFrom_append, stateCursorsFrom_append]
    refine ⟨⟨h5, ?_, trivial⟩, ?_, trivial⟩
    · rw [dictGet_dictSet_self, h4]
    · rw [dictGet_dictSet_ne _ _ _ _ (by decide : ¬"Purchases" = "Users"),
        dictGet_dictSet_self, h4]
      simp [userCount]

/-- C6: every state checkpoint emitted by `read` carries a Users entry
whose cursor equals the resumed offset plus the number of users emitted
before it, together with the seed (`stateCursorsFrom`); and in the
concrete run `count=5, records_per_sync=5, records_per_slice=2` with
Users and Purchases enabled and empty prior state, the sequence is: two
users (one with an inline purchase), an intermediate Users checkpoint at
cursor 2, two more users, an intermediate checkpoint at cursor 4, the
fifth user, the final Users checkpoint at cursor 5, and a Purchases
checkpoint whose `purchases_count` equals the number of purchase records
emitted. -/
theorem read_users_checkpoints :
    (∀ (dE : Int) (products : List Int) (config : Config)
        (st : StateDict) (fake : FakerGen) (g : Rng),
      stateCursorsFrom config.seed (get_stream_cursor st "Users")
        (read dE products config ["Users", "Purchases"] st fake g).1) ∧
    (read 10 [101, 102, 103]
        { count := some 5, seed := some 42, records_per_sync := some 5,
          records_per_slice := some 2 }
        ["Users", "Purchases"] [] wFake wRng).1 =
      [Msg.record "Users" (RecordData.user
          { profile := 0, id := 1, created_at := 0, updated_at := 0 }),
       Msg.record "Purchases" (RecordData.purchase
          { id := 1, product_id := 2, user_id := 1,
            added_to_cart_at := some 5, purchased_at := none,
            returned_at := none }),
       Msg.record "Users" (RecordData.user
          { profile := 0, id := 2, created_at := 0, updated_at := 0 }),
       Msg.state [("Users", { cursor := some 2, seed := some 42 })],
       Msg.record "Users" (RecordData.user
          { profile := 0, id := 3, created_at := 0, updated_at := 0 }),
       Msg.record "Users" (RecordData.user
          { profile := 0, id := 4, created_at := 0, updated_at := 0 }),
       Msg.state [("Users", { cursor := some 4, seed := some 42 })],
       Msg.record "Users" (RecordData.user
          { profile := 0, id := 5, created_at := 0, updated_at := 0 }),
       Msg.state [("Users", { cursor := some 5, seed := some 42 })],
       Msg.state [("Users", { cursor := some 5, seed := some 42 }),
         ("Purchases", { purchases_count := some 1 })]] ∧
    purchases_count_so_far
        (read 10 [101, 102, 103]
          { count := some 5, seed := some 42, records_per_sync := some 5,
            records_per_slice := some 2 }
          ["Users", "Purchases"] [] wFake wRng).2.1 =
      ((purchaseRecords (read 10 [101, 102, 103]
          { count := some 5, seed := some 42, records_per_sync := some 5,
            records_per_slice := some 2 }
          ["Users", "Purchases"] [] wFake wRng).1).length : Int) := by
  refine ⟨read_UP_stateCursors, ?_, ?_⟩
  · simp [read, streamsLoop, usersLoop, generate_purchases, purchaseLoop,
      generate_user, generate_record, generate_state, draw1to99, Rng.next,
      FakerGen.next, randrange, randrange1, random_date_in_range,
      get_stream_cursor, dictGet, dictSet, purchases_count_so_far, wFake,
      wVals, wRng]
  · simp [read, streamsLoop, usersLoop, generate_purchases, purchaseLoop,
      generate_user, generate_record, generate_state, draw1to99, Rng.next,
      FakerGen.next, randrange, randrange1, random_date_in_range,
      get_stream_cursor, dictGet, dictSet, purchases_count_so_far, wFake,
      wVals, wRng, purchaseRecords]

/-- C9 counterexample: with the configured catalog listing Products
before Users, `read` emits a Product record first and a User record only
afterwards — the stream blocks follow catalog order, so User records are
not emitted before Product records regardless of catalog order. -/
theorem read_products_first_counterexample :
    ((read 0 [7] { count := some 1 } ["Products", "Users"] [] wFake
        wRng).1.get? 0 =
      some (Msg.record "Products" (RecordData.product 7))) ∧
    ((read 0 [7] { count := some 1 } ["Products", "Users"] [] wFake
        wRng).1.get? 2 =
      some (Msg.record "Users" (RecordData.user
        { profile := 0, id := 1, created_at := 0, updated_at := 0 }))) := by
  constructor <;>
    simp [read, streamsLoop, usersLoop, generate_user, generate_record,
      generate_state, FakerGen.next, get_stream_cursor, dictGet, dictSet,
      purchases_count_so_far, wFake]

/-- Unfolding of `read` on the catalog
`["Users", "Purchases", "Products"]`: the Users block (with inline
purchases and the two final checkpoints) precedes the Products block; an
exception in the user loop truncates everything after it. -/
theorem read_UPP_eq (dE : Int) (products : List Int) (config : Config)
    (st : StateDict) (fake : FakerGen) (g : Rng) :
    read dE products config ["Users", "Purchases", "Products"] st fake g =
      (match (uOut dE products config st fake g).err with
       | some e => ((uOut dE products config st fake g).msgs,
           (uOut dE products config st fake g).state, some e)
       | none =>
           ((uOut dE products config st fake g).msgs ++
             [Msg.state (dictSet (uOut dE products config st fake g).state
               "Users"
               { cursor :=
                   some (uOut dE products config st fake g).total_records,
                 seed := config.seed })] ++
             [Msg.state (dictSet
               (dictSet (uOut dE products config st fake g).state "Users"
                 { cursor :=
                     some (uOut dE products config st fake
                       g).total_records,
                   seed := config.seed })
               "Purchases"
               { purchases_count :=
                   some (uOut dE products config st fake
                     g).purchases_count })] ++
             (products.map (fun p =>
                generate_record "Products" (RecordData.product p)) ++
              [Msg.state (dictSet (dictSet
                (dictSet (uOut dE products config st fake g).state "Users"
                  { cursor :=
                      some (uOut dE products config st fake
                        g).total_records,
                    seed := config.seed })
                "Purchases"
                { purchases_count :=
                    some (uOut dE products config st fake
                      g).purchases_count })
                "Products"
                { product_count := some (products.length : Int) })] ++ []),
            dictSet (dictSet
              (dictSet (uOut dE products config st fake g).state "Users"
                { cursor :=
                    some (uOut dE products config st fake
                      g).total_records,
                  seed := config.seed })
              "Purchases"
              { purchases_count :=
                  some (uOut dE products config st fake
                    g).purchases_count })
              "Products"
              { product_count := some (products.length : Int) },
            none)) := rfl

/-- If a message list splits into a product-free prefix and a
user/purchase-free suffix, every user or purchase record precedes every
product record. -/
theorem records_split_order {A B : List Msg}
    (hA : ∀ m ∈ A, isProductRecord m = false)
    (hB : ∀ m ∈ B, isUserOrPurchaseRecord m = false) :
    ∀ (j k : Nat) (u p : Msg),
      (A ++ B).get? j = some u → isUserOrPurchaseRecord u = true →
      (A ++ B).get? k = some p → isProductRecord p = true → j < k := by
  intro j k u p hju hu hkp hp
  have hkA : ¬k < A.length := by
    intro hk
    rw [List.get?_append hk] at hkp
    have hmem := List.get?_mem hkp
    rw [hA p hmem] at hp
    exact Bool.noConfusion hp
  have hjA : j < A.length := by
    by_contra hj
    push_neg at hj
    rw [List.get?_append_right hj] at hju
    have hmem := List.get?_mem hju
    rw [hB u hmem] at hu
    exact Bool.noConfusion hu
  omega

/-- C9 amended: when the configured catalog lists Users (and Purchases)
before Products — `["Users", "Purchases", "Products"]` — every User and
every inline Purchase record is emitted before any Product record,
following INIT → EMIT_USERS (+ nested PURCHASES) → EMIT_PRODUCTS → DONE;
the streams are processed in catalog order, not reordered. -/
theorem read_users_before_products (dE : Int) (products : List Int)
    (config : Config) (st : StateDict) (fake : FakerGen) (g : Rng) :
    ∀ (j k : Nat) (u p : Msg),
      (read dE products config ["Users", "Purchases", "Products"] st fake
        g).1.get? j = some u →
      isUserOrPurchaseRecord u = true →
      (read dE products config ["Users", "Purchases", "Products"] st fake
        g).1.get? k = some p →
      isProductRecord p = true → j < k := by
  obtain ⟨-, -, -, -, -, h6, -⟩ := uOut_post dE products config st fake g
  rw [read_UPP_eq]
  cases hcase : (uOut dE products config st fake g).err with
  | some e =>
    simp only [hcase]
    intro j k u p hju hu hkp hp
    have hnp := productRecords_nil_no_product _ h6 p (List.get?_mem hkp)
    rw [hnp] at hp
    exact Bool.noConfusion hp
  | none =>
    simp only [hcase]
    refine records_split_order ?_ ?_
    · intro m hm
      rcases List.mem_append.mp hm with hm | hm
      · rcases List.mem_append.mp hm with hm | hm
        · exact productRecords_nil_no_product _ h6 m hm
        · simp only [List.mem_singleton] at hm
          subst hm
          rfl
      · simp only [List.mem_singleton] at hm
        subst hm
        rfl
    · intro m hm
      rcases List.mem_append.mp hm with hm | hm
      · rcases List.mem_append.mp hm with hm | hm
        · obtain ⟨p', -, rfl⟩ := List.mem_map.mp hm
          rfl
        · simp only [List.mem_singleton] at hm
          subst hm
          rfl
      · simp at hm

/-- Witness for C9 (amended): in a concrete run the first message is a
User record and the fifth is a Product record, so index 0 precedes
index 4. -/
theorem read_users_before_products_witness : (0 : Nat) < 4 :=
  read_users_before_products 10 [101, 102, 103] { count := some 1 } []
    wFake wRng 0 4
    (Msg.record "Users" (RecordData.user
      { profile := 0, id := 1, created_at := 0, updated_at := 0 }))
    (Msg.record "Products" (RecordData.product 101))
    (by simp [read, streamsLoop, usersLoop, generate_purchases,
          purchaseLoop, generate_user, generate_record, generate_state,
          draw1to99, Rng.next, FakerGen.next, randrange, randrange1,
          random_date_in_range, get_stream_cursor, dictGet, dictSet,
          purchases_count_so_far, wFake, wVals, wRng])
    rfl
    (by simp [read, streamsLoop, usersLoop, generate_purchases,
          purchaseLoop, generate_user, generate_record, generate_state,
          draw1to99, Rng.next, FakerGen.next, randrange, randrange1,
          random_date_in_range, get_stream_cursor, dictGet, dictSet,
          purchases_count_so_far, wFake, wVals, wRng])
    rfl

end SourceFaker
